import Mathlib

/-!
Shallow embedding of `src/pipx/pipx_metadata_file.py`: the versioned
metadata persistence layer of pipx (`PackageInfo`, `PipxMetadata`,
JSON path tagging, legacy-version upcast, tolerant read/write).

Modeling conventions:
* `pathlib.Path` values are modeled by their canonical string form
  (`str(p)`); `Path(s)` applied to an already-canonical string is the
  identity on that form.
* The structural values moved between the store and the JSON layer are
  modeled by `PyObj` (None, bool, str, Path, list, insertion-ordered
  string-keyed dict).  Numbers never occur in this module's data.
* `json.dump`/`json.load` are modeled at the value level: the file holds
  the structural value produced by the encoder, and `json.load` with the
  `object_hook` is decoding of that value.  The deterministic text
  `json.dumps(..., indent=4, sort_keys=True)` would produce is modeled
  separately by `renderJson`.
* Python performs no runtime type checking when populating dataclass
  fields.  The embedding restricts stored records to values of the
  declared field types and signals `typeError` where an ill-typed value
  would flow into a field (where CPython would raise `TypeError` at the
  first operation on it, or store an ill-typed value no claim exercises).
* Exceptions are modeled as `Except` values; `logger` output is modeled
  as an explicit list of `LogEntry`.
-/

set_option maxRecDepth 4000

namespace Pipx

/-- `pathlib.Path`, modeled by its canonical string form `str(p)`. -/
structure Path where
  str : String
deriving DecidableEq, Repr

/-- The final `/`-separated component of a character list (`acc` holds the
component read so far). -/
def lastComponent (acc : List Char) : List Char → List Char
  | [] => acc
  | '/' :: cs => lastComponent [] cs
  | c :: cs => lastComponent (acc ++ [c]) cs

/-- Python `Path.name`: the final component of the path. -/
def Path.name (p : Path) : String :=
  String.mk (lastComponent [] p.str.data)

/-- A Python value as handled by this module: `None`, `bool`, `str`,
`pathlib.Path`, `list`, and insertion-ordered string-keyed `dict`. -/
inductive PyObj where
  | pyNone : PyObj
  | pyBool : Bool → PyObj
  | pyStr : String → PyObj
  | pyPath : Path → PyObj
  | pyList : List PyObj → PyObj
  | pyDict : List (String × PyObj) → PyObj

/-- Python `d.get(k)` / `d[k]` lookup on a dict (keys are unique in any
dict Python builds; lookup returns the first binding). -/
def dictGet : List (String × PyObj) → String → Option PyObj
  | [], _ => none
  | kv :: kvs, k => if kv.1 = k then some kv.2 else dictGet kvs k

/-- Python `d[k] = v` on a dict: replace the binding if the key is
present, otherwise append a new binding. -/
def dictSet : List (String × PyObj) → String → PyObj → List (String × PyObj)
  | [], k, v => [(k, v)]
  | kv :: kvs, k, v => if kv.1 = k then (k, v) :: kvs else kv :: dictSet kvs k v

/-- Whether `sub` is an initial segment of `s` (character lists). -/
def charsStartWith : List Char → List Char → Bool
  | [], _ => true
  | _ :: _, [] => false
  | a :: as, b :: bs => a = b && charsStartWith as bs

/-- Whether `sub` occurs contiguously in `s` (character lists). -/
def charsContain (sub : List Char) : List Char → Bool
  | [] => sub.isEmpty
  | c :: rest => charsStartWith sub (c :: rest) || charsContain sub rest

/-- Python `sub in s` on strings: substring containment. -/
def pyStrIn (sub s : String) : Bool :=
  charsContain sub.data s.data

/-- Removal of all left-to-right non-overlapping occurrences of the
non-empty pattern `p :: ps` from a character list.  The fuel argument
(always instantiated with the list length, which every step strictly
decreases by at least one) keeps the recursion structural. -/
def charsRemove (p : Char) (ps : List Char) : Nat → List Char → List Char
  | 0, s => s
  | _ + 1, [] => []
  | n + 1, c :: rest =>
      if charsStartWith (p :: ps) (c :: rest) then
        charsRemove p ps n (rest.drop ps.length)
      else c :: charsRemove p ps n rest

/-- Python `s.replace(pat, "")`: remove every occurrence of `pat`.
(CPython leaves `s` unchanged when `pat` is empty and the replacement is
empty.) -/
def pyStrRemove (s pat : String) : String :=
  match pat.data with
  | [] => s
  | p :: ps => String.mk (charsRemove p ps s.data.length s.data)

/-- Python truthiness of the values this module tests with `if`. -/
def pyTruthy : PyObj → Bool
  | .pyNone => false
  | .pyBool b => b
  | .pyStr s => !s.data.isEmpty
  | .pyPath _ => true
  | .pyList xs => !xs.isEmpty
  | .pyDict kvs => !kvs.isEmpty

/-- Exceptions raised (or modeled, see the header) by this module. -/
inductive PyErr where
  | pipxError (msg : String)
  | unknownMetadataVersion (venvName : String) (version : String)
  | keyError (key : String)
  | typeError
deriving DecidableEq, Repr

/-- `logger` output relevant to this module. -/
inductive LogEntry where
  | debugCorrupt
  | warnUnableToWrite (venvDir : Path)
  | warnUnableToRead (venvDir : Path)
deriving DecidableEq, Repr

/-- `Path(x)`: identity on a `Path`, wraps a (canonical) string,
`TypeError` otherwise. -/
def pyPathOf : PyObj → Except PyErr Path
  | .pyPath p => .ok p
  | .pyStr s => .ok ⟨s⟩
  | _ => .error .typeError

/-- Require a `dict` value. -/
def asDict : PyObj → Except PyErr (List (String × PyObj))
  | .pyDict kvs => .ok kvs
  | _ => .error .typeError

/-- Require `None` or a `str` (an `Optional[str]` field). -/
def asOptStr : PyObj → Except PyErr (Option String)
  | .pyNone => .ok none
  | .pyStr s => .ok (some s)
  | _ => .error .typeError

/-- Require a `str`. -/
def asStr : PyObj → Except PyErr String
  | .pyStr s => .ok s
  | _ => .error .typeError

/-- Require a `bool`. -/
def asBool : PyObj → Except PyErr Bool
  | .pyBool b => .ok b
  | _ => .error .typeError

/-- Left-to-right decoding of a list, stopping at the first failure (the
order a Python comprehension evaluates in). -/
def mapExceptList (f : α → Except PyErr β) : List α → Except PyErr (List β)
  | [] => .ok []
  | x :: xs => do
      let y ← f x
      let ys ← mapExceptList f xs
      pure (y :: ys)

/-- Require a `List[str]`. -/
def asStrList : PyObj → Except PyErr (List String)
  | .pyList xs => mapExceptList asStr xs
  | _ => .error .typeError

/-- Require a `Path`. -/
def asPath : PyObj → Except PyErr Path
  | .pyPath p => .ok p
  | _ => .error .typeError

/-- Require a `List[Path]`. -/
def asPathList : PyObj → Except PyErr (List Path)
  | .pyList xs => mapExceptList asPath xs
  | _ => .error .typeError

/-- Require a `Dict[str, List[Path]]`. -/
def asPathListDict : PyObj → Except PyErr (List (String × List Path))
  | .pyDict kvs =>
      mapExceptList (fun kv => (asPathList kv.2).map (fun v => (kv.1, v))) kvs
  | _ => .error .typeError

/-- `d[k]`: `KeyError` when the key is absent. -/
def reqKey (d : List (String × PyObj)) (k : String) : Except PyErr PyObj :=
  match dictGet d k with
  | some v => .ok v
  | none => .error (.keyError k)

/-- The frozen dataclass `PackageInfo`. -/
structure PackageInfo where
  package : Option String
  package_or_url : Option String
  pip_args : List String
  include_dependencies : Bool
  include_apps : Bool
  apps : List String
  app_paths : List Path
  apps_of_dependencies : List String
  app_paths_of_dependencies : List (String × List Path)
  package_version : String
  man_pages : List String
  man_paths : List Path
  man_pages_of_dependencies : List String
  man_paths_of_dependencies : List (String × List Path)
  suffix : String
  pinned : Bool
deriving DecidableEq, Repr

/-- The field names of `PackageInfo`, in declaration order. -/
def packageInfoFields : List String :=
  ["package", "package_or_url", "pip_args", "include_dependencies", "include_apps",
   "apps", "app_paths", "apps_of_dependencies", "app_paths_of_dependencies",
   "package_version", "man_pages", "man_paths", "man_pages_of_dependencies",
   "man_paths_of_dependencies", "suffix", "pinned"]

/-- A required keyword argument, decoded by `f`; a missing required key
is a `TypeError` from the dataclass constructor. -/
def reqArg (d : List (String × PyObj)) (k : String) (f : PyObj → Except PyErr α) :
    Except PyErr α :=
  match dictGet d k with
  | some v => f v
  | none => .error .typeError

/-- A keyword argument with a dataclass default. -/
def optArg (d : List (String × PyObj)) (k : String) (f : PyObj → Except PyErr α)
    (dflt : α) : Except PyErr α :=
  match dictGet d k with
  | some v => f v
  | none => .ok dflt

/-- `PackageInfo(**d)`: keyword construction of the frozen dataclass.
An unexpected or missing required keyword raises `TypeError`; the six
fields added by later metadata versions take their dataclass defaults. -/
def PackageInfo.fromKwargs (d : List (String × PyObj)) : Except PyErr PackageInfo :=
  if d.all (fun kv => packageInfoFields.contains kv.1) then
    match reqArg d "package" asOptStr, reqArg d "package_or_url" asOptStr,
        reqArg d "pip_args" asStrList, reqArg d "include_dependencies" asBool,
        reqArg d "include_apps" asBool, reqArg d "apps" asStrList,
        reqArg d "app_paths" asPathList, reqArg d "apps_of_dependencies" asStrList,
        reqArg d "app_paths_of_dependencies" asPathListDict,
        reqArg d "package_version" asStr, optArg d "man_pages" asStrList [],
        optArg d "man_paths" asPathList [],
        optArg d "man_pages_of_dependencies" asStrList [],
        optArg d "man_paths_of_dependencies" asPathListDict [],
        optArg d "suffix" asStr "", optArg d "pinned" asBool false with
    | .ok package, .ok package_or_url, .ok pip_args, .ok include_dependencies,
      .ok include_apps, .ok apps, .ok app_paths, .ok apps_of_dependencies,
      .ok app_paths_of_dependencies, .ok package_version, .ok man_pages,
      .ok man_paths, .ok man_pages_of_dependencies, .ok man_paths_of_dependencies,
      .ok sfx, .ok pinned =>
        .ok ⟨package, package_or_url, pip_args, include_dependencies, include_apps,
          apps, app_paths, apps_of_dependencies, app_paths_of_dependencies,
          package_version, man_pages, man_paths, man_pages_of_dependencies,
          man_paths_of_dependencies, sfx, pinned⟩
    | _, _, _, _, _, _, _, _, _, _, _, _, _, _, _, _ => .error .typeError
  else .error .typeError

/-- Serialize an `Optional[str]`. -/
def optStrObj : Option String → PyObj
  | none => .pyNone
  | some s => .pyStr s

/-- Serialize a `List[str]`. -/
def strListObj (xs : List String) : PyObj := .pyList (xs.map .pyStr)

/-- Serialize a `List[Path]` (the `Path` objects stay `Path` objects). -/
def pathListObj (xs : List Path) : PyObj := .pyList (xs.map .pyPath)

/-- Serialize a `Dict[str, List[Path]]`. -/
def pathListDictObj (m : List (String × List Path)) : PyObj :=
  .pyDict (m.map (fun kv => (kv.1, pathListObj kv.2)))

/-- `dataclasses.asdict` of a `PackageInfo`: a dict with one entry per
field, in declaration order (`asdict` recurses into containers but
leaves `Path` objects as they are). -/
def PackageInfo.asdictPairs (p : PackageInfo) : List (String × PyObj) :=
  [("package", optStrObj p.package),
   ("package_or_url", optStrObj p.package_or_url),
   ("pip_args", strListObj p.pip_args),
   ("include_dependencies", .pyBool p.include_dependencies),
   ("include_apps", .pyBool p.include_apps),
   ("apps", strListObj p.apps),
   ("app_paths", pathListObj p.app_paths),
   ("apps_of_dependencies", strListObj p.apps_of_dependencies),
   ("app_paths_of_dependencies", pathListDictObj p.app_paths_of_dependencies),
   ("package_version", .pyStr p.package_version),
   ("man_pages", strListObj p.man_pages),
   ("man_paths", pathListObj p.man_paths),
   ("man_pages_of_dependencies", strListObj p.man_pages_of_dependencies),
   ("man_paths_of_dependencies", pathListDictObj p.man_paths_of_dependencies),
   ("suffix", .pyStr p.suffix),
   ("pinned", .pyBool p.pinned)]

/-- `dataclasses.asdict` of a `PackageInfo`, as a `PyObj`. -/
def PackageInfo.asdict (p : PackageInfo) : PyObj := .pyDict p.asdictPairs

/-- The mutable store `PipxMetadata` (one per environment directory). -/
structure PipxMetadata where
  venv_dir : Path
  main_package : PackageInfo
  python_version : Option String
  source_interpreter : Option Path
  venv_args : List String
  injected_packages : List (String × PackageInfo)
deriving DecidableEq, Repr

/-- `PipxMetadata.__METADATA_VERSION__` (current on-disk version). -/
def metadataVersionTag : String := "0.5"

/-- The member defaults `__init__` installs before any read: identity
fields absent, `include_apps=True`, everything else empty or false. -/
def PipxMetadata.initial (venv_dir : Path) : PipxMetadata :=
  ⟨venv_dir,
   ⟨none, none, [], false, true, [], [], [], [], "", [], [], [], [], "", false⟩,
   none, none, [], []⟩

/-- `PipxMetadata.to_dict`. -/
def PipxMetadata.toDictPairs (st : PipxMetadata) : List (String × PyObj) :=
  [("main_package", st.main_package.asdict),
   ("python_version", optStrObj st.python_version),
   ("source_interpreter", match st.source_interpreter with
      | none => .pyNone
      | some p => .pyPath p),
   ("venv_args", strListObj st.venv_args),
   ("injected_packages",
      .pyDict (st.injected_packages.map (fun kv => (kv.1, kv.2.asdict)))),
   ("pipx_metadata_version", .pyStr metadataVersionTag)]

/-- `PipxMetadata.to_dict`, as a `PyObj`. -/
def PipxMetadata.toDict (st : PipxMetadata) : PyObj := .pyDict st.toDictPairs

/-- `PipxMetadata._convert_legacy_metadata`.  Note that the first test of
the source, `metadata_dict["pipx_metadata_version"] in
(self.__METADATA_VERSION__)`, parenthesizes a single string rather than
building a tuple, so it is *substring* containment in `"0.5"`. -/
def convertLegacyMetadata (venvDir : Path) (d : List (String × PyObj)) :
    Except PyErr (List (String × PyObj)) := do
  let vObj ← reqKey d "pipx_metadata_version"
  match vObj with
  | .pyStr v =>
    if pyStrIn v metadataVersionTag then
      pure d
    else if v = "0.4" then
      pure (dictSet d "pinned" (.pyBool false))
    else if v = "0.2" ∨ v = "0.3" then
      pure (dictSet d "source_interpreter" .pyNone)
    else if v = "0.1" then do
      let mpObj ← reqKey d "main_package"
      let mpD ← asDict mpObj
      let pkg ← reqKey mpD "package"
      match pkg with
      | .pyStr p =>
          -- `main_package_data["package"] != self.venv_dir.name`
          let d' := if p ≠ venvDir.name then
              dictSet d "main_package"
                (.pyDict (dictSet mpD "suffix" (.pyStr (pyStrRemove venvDir.name p))))
            else d
          pure (dictSet d' "source_interpreter" .pyNone)
      | _ =>
          -- a non-str `package` is never equal to the str `venv_dir.name`,
          -- and `str.replace` applied to it raises `TypeError`
          Except.error .typeError
    else
      Except.error (.unknownMetadataVersion venvDir.name v)
  | _ =>
      -- `x in "0.5"` raises `TypeError` for a non-str `x`
      Except.error .typeError

/-- One entry of the stored `injected_packages` dict, as `from_dict`
reconstructs it: the key is the stored name followed by
`data.get('suffix', '')`, the value is `PackageInfo(**data)`. -/
def readInjectedEntry (kv : String × PyObj) : Except PyErr (String × PackageInfo) := do
  let dataD ← asDict kv.2
  let sfx ← (match dictGet dataD "suffix" with
    | some (.pyStr s) => pure s
    | some _ => Except.error .typeError
    | none => pure "")
  let pi ← PackageInfo.fromKwargs dataD
  pure (kv.1 ++ sfx, pi)

/-- `PipxMetadata.from_dict` (on the already `object_hook`-decoded
structural value).  The model is all-or-nothing where the source mutates
`self` field by field; for the version error, which is raised before any
field assignment, this is exact. -/
def PipxMetadata.fromDict (st : PipxMetadata) (input : PyObj) :
    Except PyErr PipxMetadata := do
  let d0 ← asDict input
  let d ← convertLegacyMetadata st.venv_dir d0
  let mpObj ← reqKey d "main_package"
  let mpD ← asDict mpObj
  let mainPackage ← PackageInfo.fromKwargs mpD
  let pvObj ← reqKey d "python_version"
  let pythonVersion ← asOptStr pvObj
  let sourceInterpreter ← (match dictGet d "source_interpreter" with
    | some v => if pyTruthy v then (pyPathOf v).map some else pure none
    | none => pure none)
  let vaObj ← reqKey d "venv_args"
  let venvArgs ← asStrList vaObj
  let injObj ← reqKey d "injected_packages"
  let injD ← asDict injObj
  let injected ← mapExceptList readInjectedEntry injD
  pure ⟨st.venv_dir, mainPackage, pythonVersion, sourceInterpreter, venvArgs, injected⟩

/- `JsonEncoderHandlesPath` as a value transformation: every `Path`
becomes the tagged object; everything else is default structural
encoding. -/
mutual

def encodeJson : PyObj → PyObj
  | .pyNone => .pyNone
  | .pyBool b => .pyBool b
  | .pyStr s => .pyStr s
  | .pyPath p => .pyDict [("__type__", .pyStr "Path"), ("__Path__", .pyStr p.str)]
  | .pyList xs => .pyList (encodeJsonList xs)
  | .pyDict kvs => .pyDict (encodeJsonPairs kvs)

def encodeJsonList : List PyObj → List PyObj
  | [] => []
  | x :: xs => encodeJson x :: encodeJsonList xs

def encodeJsonPairs : List (String × PyObj) → List (String × PyObj)
  | [] => []
  | kv :: kvs => (kv.1, encodeJson kv.2) :: encodeJsonPairs kvs

end

/-- `_json_decoder_object_hook` on one already-decoded object.  (When the
two-key shape is present but `__Path__` holds a non-string, `Path(...)`
would raise `TypeError` in CPython; that shape is never produced by this
module's encoder and the model leaves such a dict unchanged.) -/
def objectHook (kvs : List (String × PyObj)) : PyObj :=
  match dictGet kvs "__type__", dictGet kvs "__Path__" with
  | some (.pyStr "Path"), some (.pyStr s) => .pyPath ⟨s⟩
  | _, _ => .pyDict kvs

/- `json.load` with `object_hook=_json_decoder_object_hook`, at the
value level: the hook runs on every object, innermost first. -/
mutual

def decodeJson : PyObj → PyObj
  | .pyNone => .pyNone
  | .pyBool b => .pyBool b
  | .pyStr s => .pyStr s
  | .pyPath p => .pyPath p
  | .pyList xs => .pyList (decodeJsonList xs)
  | .pyDict kvs => objectHook (decodeJsonPairs kvs)

def decodeJsonList : List PyObj → List PyObj
  | [] => []
  | x :: xs => decodeJson x :: decodeJsonList xs

def decodeJsonPairs : List (String × PyObj) → List (String × PyObj)
  | [] => []
  | kv :: kvs => (kv.1, decodeJson kv.2) :: decodeJsonPairs kvs

end

/-- The one file this module touches (`<venv_dir>/pipx_metadata.json`),
together with whether opening it for reading or writing succeeds.  The
content is held as the structural value the stored JSON text denotes. -/
structure FileSystem where
  content : Option PyObj
  readable : Bool
  writable : Bool

/-- Opening the metadata file for reading: `OSError` (modeled as `none`)
when the file is absent or unreadable. -/
def FileSystem.openRead (fs : FileSystem) : Option PyObj :=
  if fs.readable then fs.content else none

/-- The condition `_validate_before_write` rejects. -/
def PipxMetadata.corruptCheck (st : PipxMetadata) : Bool :=
  st.main_package.package.isNone || st.main_package.package_or_url.isNone ||
    !st.main_package.include_apps

/-- The message of the internal-corruption `PipxError`. -/
def corruptMsg : String := "Internal Error: PipxMetadata is corrupt, cannot write."

/-- Outcome of `PipxMetadata.write`: the exception propagated to the
caller (if any), the file state afterwards, and the log output. -/
structure WriteResult where
  err : Option PyErr
  fs : FileSystem
  logs : List LogEntry

/-- `PipxMetadata.write`: validate, then dump `to_dict()` through the
path-tagging encoder; an `OSError` while persisting is caught and logged
as a warning naming the affected environment. -/
def PipxMetadata.write (st : PipxMetadata) (fs : FileSystem) : WriteResult :=
  if st.corruptCheck then
    ⟨some (.pipxError corruptMsg), fs, [.debugCorrupt]⟩
  else if fs.writable then
    ⟨none, ⟨some (encodeJson st.toDict), fs.readable, fs.writable⟩, []⟩
  else
    ⟨none, fs, [.warnUnableToWrite st.venv_dir]⟩

/-- Outcome of `PipxMetadata.read` (and of construction, which reads):
the exception propagated to the caller (if any), the store state
afterwards, and the log output. -/
structure ReadResult where
  err : Option PyErr
  state : PipxMetadata
  logs : List LogEntry

/-- `PipxMetadata.read`: on `OSError` the handler only logs (when
verbose) and returns, leaving every field as it was; an exception out of
`from_dict` propagates. -/
def PipxMetadata.read (st : PipxMetadata) (fs : FileSystem) (verbose : Bool) :
    ReadResult :=
  match fs.openRead with
  | some v =>
      match st.fromDict (decodeJson v) with
      | .ok st' => ⟨none, st', []⟩
      | .error e => ⟨some e, st, []⟩
  | none => ⟨none, st, if verbose then [.warnUnableToRead st.venv_dir] else []⟩

/-- `PipxMetadata.__init__`: install the defaults, then (with the default
`read=True`) immediately read the persisted state, not verbosely. -/
def PipxMetadata.construct (venv_dir : Path) (fs : FileSystem) (doRead : Bool) :
    ReadResult :=
  let st := PipxMetadata.initial venv_dir
  if doRead then st.read fs false else ⟨none, st, []⟩

example : dictGet [("a", .pyNone), ("b", .pyBool true)] "b" = some (.pyBool true) := rfl
example : pyStrIn "0" "0.5" = true := by decide
example : pyStrIn "9.9" "0.5" = false := by decide
example : pyStrIn "0.5" "0.5" = true := by decide
example : (Path.mk "venvs/foo-special").name = "foo-special" := by decide
example : pyStrRemove "foo-special" "foo" = "-special" := by decide
example : pyStrRemove "abcabc" "bc" = "aa" := by decide

/-- Four lowercase hex digits, as in Python's `\\uXXXX` escapes. -/
def hex4 (n : Nat) : String :=
  String.mk [(n / 4096 % 16).digitChar, (n / 256 % 16).digitChar,
    (n / 16 % 16).digitChar, (n % 16).digitChar]

/-- One character of a JSON string literal, as `json.dumps` emits it with
the default `ensure_ascii=True` (non-ASCII escaped, astral characters as
surrogate pairs). -/
def escChar (c : Char) : String :=
  if c = '"' then "\\\""
  else if c = '\\' then "\\\\"
  else if c = '\n' then "\\n"
  else if c = '\t' then "\\t"
  else if c = '\r' then "\\r"
  else if c.toNat = 8 then "\\b"
  else if c.toNat = 12 then "\\f"
  else if c.toNat < 32 then "\\u" ++ hex4 c.toNat
  else if c.toNat < 127 then String.singleton c
  else if c.toNat < 65536 then "\\u" ++ hex4 c.toNat
  else
    "\\u" ++ hex4 (55296 + (c.toNat - 65536) / 1024) ++
      "\\u" ++ hex4 (56320 + (c.toNat - 65536) % 1024)

/-- A JSON string literal for `s`. -/
def renderJsonString (s : String) : String :=
  "\"" ++ String.join (s.data.map escChar) ++ "\""

/-- `indent=4` padding at nesting depth `ind`. -/
def pad (ind : Nat) : String := String.mk (List.replicate (ind * 4) ' ')

/-- Items of an array, one per line at depth `ind`, comma-separated. -/
def joinItems (ind : Nat) (xs : List String) : String :=
  String.intercalate ",\n" (xs.map (fun s => pad ind ++ s))

/-- Entries of an object, one per line at depth `ind`, comma-separated,
with the `": "` key separator. -/
def joinPairs (ind : Nat) (ps : List (String × String)) : String :=
  String.intercalate ",\n"
    (ps.map (fun p => pad ind ++ renderJsonString p.1 ++ ": " ++ p.2))

/-- Code-point lexicographic `<` on character lists (Python `str` order). -/
def charsLt : List Char → List Char → Bool
  | [], [] => false
  | [], _ :: _ => true
  | _ :: _, [] => false
  | a :: as, b :: bs => a < b || (a = b && charsLt as bs)

/-- Python `a <= b` on strings. -/
def strKeyLe (a b : String) : Bool := !charsLt b.data a.data

/-- Insert a rendered entry into a key-sorted list of rendered entries. -/
def insertPairSorted (p : String × String) :
    List (String × String) → List (String × String)
  | [] => [p]
  | q :: qs => if strKeyLe p.1 q.1 then p :: q :: qs else q :: insertPairSorted p qs

/-- `sort_keys=True`: sort an object's rendered entries by key. -/
def sortPairs : List (String × String) → List (String × String)
  | [] => []
  | p :: ps => insertPairSorted p (sortPairs ps)

/- The text `json.dump(obj, fh, indent=4, sort_keys=True,
cls=JsonEncoderHandlesPath)` writes for `obj` at depth `ind`.  A `Path`
leaf is rendered as the encoder's tagged object (its two keys already in
sorted order). -/
mutual

def renderJson (ind : Nat) : PyObj → String
  | .pyNone => "null"
  | .pyBool b => if b then "true" else "false"
  | .pyStr s => renderJsonString s
  | .pyPath p =>
      "\x7b\n" ++ pad (ind + 1) ++ "\"__Path__\": " ++ renderJsonString p.str ++ ",\n"
        ++ pad (ind + 1) ++ "\"__type__\": \"Path\"\n" ++ pad ind ++ "\x7d"
  | .pyList [] => "[]"
  | .pyList (x :: xs) =>
      "[\n" ++ joinItems (ind + 1) (renderJsonList (ind + 1) (x :: xs)) ++ "\n"
        ++ pad ind ++ "]"
  | .pyDict [] => "\x7b\x7d"
  | .pyDict (kv :: kvs) =>
      "\x7b\n" ++ joinPairs (ind + 1) (sortPairs (renderJsonPairs (ind + 1) (kv :: kvs)))
        ++ "\n" ++ pad ind ++ "\x7d"

def renderJsonList (ind : Nat) : List PyObj → List String
  | [] => []
  | x :: xs => renderJson ind x :: renderJsonList ind xs

def renderJsonPairs (ind : Nat) : List (String × PyObj) → List (String × String)
  | [] => []
  | kv :: kvs => (kv.1, renderJson ind kv.2) :: renderJsonPairs ind kvs

end

/-- The bytes persisted in the metadata file (the file content holds the
structural value; these are the bytes `json.dump` denoted it by). -/
def FileSystem.persistedBytes (fs : FileSystem) : Option String :=
  fs.content.map (renderJson 0)

/-! ### Basic lemmas -/

@[simp]
theorem exceptBind_ok (a : α) (f : α → Except PyErr β) :
    (Except.ok a >>= f) = f a := rfl

@[simp]
theorem exceptBind_error (e : PyErr) (f : α → Except PyErr β) :
    ((Except.error e : Except PyErr α) >>= f) = Except.error e := rfl

@[simp]
theorem exceptPure (a : α) : (pure a : Except PyErr α) = .ok a := rfl

@[simp]
theorem exceptMap_ok (f : α → β) (a : α) :
    (f <$> (Except.ok a : Except PyErr α)) = Except.ok (f a) := rfl

@[simp]
theorem exceptMap_error (f : α → β) (e : PyErr) :
    (f <$> (Except.error e : Except PyErr α)) = Except.error e := rfl

@[simp]
theorem exceptMapFn_ok (f : α → β) (a : α) :
    Except.map f (Except.ok a : Except PyErr α) = .ok (f a) := rfl

@[simp]
theorem exceptMapFn_error (f : α → β) (e : PyErr) :
    Except.map f (Except.error e : Except PyErr α) = .error e := rfl

theorem exceptBind_eq_ok {x : Except PyErr α} {f : α → Except PyErr β} {b : β}
    (h : x >>= f = .ok b) : ∃ a, x = .ok a ∧ f a = .ok b := by
  cases x with
  | ok a => exact ⟨a, rfl, h⟩
  | error e => exact absurd h (by simp)

theorem dictGet_dictSet_self (d : List (String × PyObj)) (k : String) (v : PyObj) :
    dictGet (dictSet d k v) k = some v := by
  induction d with
  | nil => simp [dictGet, dictSet]
  | cons kv kvs ih => by_cases h : kv.1 = k <;> simp [dictGet, dictSet, h, ih]

theorem dictGet_dictSet_ne (d : List (String × PyObj)) (k k' : String) (v : PyObj)
    (h : k' ≠ k) : dictGet (dictSet d k v) k' = dictGet d k' := by
  have hkk : ¬(k = k') := fun hh => h hh.symm
  induction d with
  | nil => simp [dictSet, dictGet, hkk]
  | cons kv kvs ih =>
      by_cases hk : kv.1 = k
      · simp [dictSet, dictGet, hk, hkk]
      · simp only [dictSet, if_neg hk, dictGet, ih]

/-! ### The decoders invert the serializers -/

@[simp]
theorem asOptStr_optStrObj (o : Option String) : asOptStr (optStrObj o) = .ok o := by
  cases o <;> rfl

@[simp]
theorem asStrList_strListObj (xs : List String) : asStrList (strListObj xs) = .ok xs := by
  induction xs with
  | nil => rfl
  | cons x xs ih =>
      simp only [asStrList, strListObj, List.map_cons] at ih ⊢
      simp [mapExceptList, asStr, ih]

@[simp]
theorem asPathList_pathListObj (xs : List Path) : asPathList (pathListObj xs) = .ok xs := by
  induction xs with
  | nil => rfl
  | cons x xs ih =>
      simp only [asPathList, pathListObj, List.map_cons] at ih ⊢
      simp [mapExceptList, asPath, ih]

@[simp]
theorem asPathListDict_pathListDictObj (m : List (String × List Path)) :
    asPathListDict (pathListDictObj m) = .ok m := by
  induction m with
  | nil => rfl
  | cons kv kvs ih =>
      simp only [asPathListDict, pathListDictObj, List.map_cons] at ih ⊢
      simp [mapExceptList, Except.map, asPathList_pathListObj, ih] at ih ⊢

/-- `PackageInfo(**asdict(p))` reconstructs `p` exactly. -/
theorem fromKwargs_asdictPairs (p : PackageInfo) :
    PackageInfo.fromKwargs p.asdictPairs = .ok p := by
  simp [PackageInfo.fromKwargs, PackageInfo.asdictPairs, packageInfoFields,
    reqArg, optArg, dictGet, asStr, asBool]

/-! ### Decoding inverts the path-tagging encoding on `to_dict` output -/

theorem objectHook_no_tag (kvs : List (String × PyObj))
    (h : ∀ v, dictGet kvs "__type__" = some v → ∀ s, v ≠ PyObj.pyStr s) :
    objectHook kvs = .pyDict kvs := by
  unfold objectHook
  cases hg : dictGet kvs "__type__" with
  | none => rfl
  | some v =>
      cases v with
      | pyStr s => exact absurd rfl (h _ hg s)
      | pyNone => rfl
      | pyBool b => rfl
      | pyPath p => rfl
      | pyList xs => rfl
      | pyDict kvs2 => rfl

theorem dictGet_map_pathLists (m : List (String × List Path)) (k : String) (v : PyObj)
    (h : dictGet (m.map (fun kv => (kv.1, pathListObj kv.2))) k = some v) :
    ∃ xs, v = pathListObj xs := by
  induction m with
  | nil => simp [dictGet] at h
  | cons kv kvs ih =>
      simp only [List.map_cons, dictGet] at h
      by_cases hk : kv.1 = k
      · rw [if_pos hk] at h; exact ⟨kv.2, (Option.some.inj h).symm⟩
      · rw [if_neg hk] at h; exact ih h

theorem dictGet_map_asdicts (l : List (String × PackageInfo)) (k : String) (v : PyObj)
    (h : dictGet (l.map (fun kv => (kv.1, kv.2.asdict))) k = some v) :
    ∃ d', v = PyObj.pyDict d' := by
  induction l with
  | nil => simp [dictGet] at h
  | cons kv kvs ih =>
      simp only [List.map_cons, dictGet] at h
      by_cases hk : kv.1 = k
      · rw [if_pos hk] at h
        exact ⟨kv.2.asdictPairs, (Option.some.inj h).symm⟩
      · rw [if_neg hk] at h; exact ih h

@[simp]
theorem encodeJson_dict (kvs : List (String × PyObj)) :
    encodeJson (.pyDict kvs) = .pyDict (encodeJsonPairs kvs) := rfl

@[simp]
theorem decodeJson_dict (kvs : List (String × PyObj)) :
    decodeJson (.pyDict kvs) = objectHook (decodeJsonPairs kvs) := rfl

@[simp]
theorem encodeJsonPairs_nil : encodeJsonPairs [] = [] := rfl

@[simp]
theorem encodeJsonPairs_cons (kv : String × PyObj) (kvs : List (String × PyObj)) :
    encodeJsonPairs (kv :: kvs) = (kv.1, encodeJson kv.2) :: encodeJsonPairs kvs := rfl

@[simp]
theorem decodeJsonPairs_nil : decodeJsonPairs [] = [] := rfl

@[simp]
theorem decodeJsonPairs_cons (kv : String × PyObj) (kvs : List (String × PyObj)) :
    decodeJsonPairs (kv :: kvs) = (kv.1, decodeJson kv.2) :: decodeJsonPairs kvs := rfl

theorem objectHook_of_typeNone (kvs : List (String × PyObj))
    (h : dictGet kvs "__type__" = none) : objectHook kvs = .pyDict kvs :=
  objectHook_no_tag kvs (fun v hv _ => by rw [h] at hv; exact Option.noConfusion hv)

@[simp]
theorem decEnc_pyBool (b : Bool) :
    decodeJson (encodeJson (.pyBool b)) = .pyBool b := rfl

@[simp]
theorem decEnc_pyStr (s : String) :
    decodeJson (encodeJson (.pyStr s)) = .pyStr s := rfl

@[simp]
theorem decEnc_optStrObj (o : Option String) :
    decodeJson (encodeJson (optStrObj o)) = optStrObj o := by
  cases o <;> rfl

theorem encodeJsonList_strs (xs : List String) :
    encodeJsonList (xs.map .pyStr) = xs.map .pyStr := by
  induction xs with
  | nil => rfl
  | cons x xs ih => simp [encodeJsonList, encodeJson, ih]

theorem decodeJsonList_strs (xs : List String) :
    decodeJsonList (xs.map .pyStr) = xs.map .pyStr := by
  induction xs with
  | nil => rfl
  | cons x xs ih => simp [decodeJsonList, decodeJson, ih]

@[simp]
theorem decEnc_strListObj (xs : List String) :
    decodeJson (encodeJson (strListObj xs)) = strListObj xs := by
  simp [strListObj, encodeJson, decodeJson, encodeJsonList_strs, decodeJsonList_strs]

@[simp]
theorem decEnc_pyPath (p : Path) :
    decodeJson (encodeJson (.pyPath p)) = .pyPath p := rfl

@[simp]
theorem decEnc_pathListObj (xs : List Path) :
    decodeJson (encodeJson (pathListObj xs)) = pathListObj xs := by
  have h : decodeJsonList (encodeJsonList (xs.map .pyPath)) = xs.map .pyPath := by
    induction xs with
    | nil => rfl
    | cons x xs ih =>
        simp only [List.map_cons, encodeJsonList, decodeJsonList, ih]
        exact congrArg (fun v => v :: xs.map PyObj.pyPath) (decEnc_pyPath x)
  simp [pathListObj, encodeJson, decodeJson, h]

@[simp]
theorem decEnc_pathListDictObj (m : List (String × List Path)) :
    decodeJson (encodeJson (pathListDictObj m)) = pathListDictObj m := by
  have hpairs : decodeJsonPairs (encodeJsonPairs
      (m.map (fun kv => (kv.1, pathListObj kv.2)))) =
      m.map (fun kv => (kv.1, pathListObj kv.2)) := by
    induction m with
    | nil => rfl
    | cons kv kvs ih =>
        simp only [List.map_cons, encodeJsonPairs, decodeJsonPairs, ih]
        simp [decEnc_pathListObj kv.2]
  simp only [pathListDictObj, encodeJson, decodeJson, hpairs]
  exact objectHook_no_tag _ (by
    intro v hv s hs
    obtain ⟨xs, rfl⟩ := dictGet_map_pathLists m "__type__" v hv
    simp [pathListObj] at hs)

@[simp]
theorem decEnc_asdict (p : PackageInfo) :
    decodeJson (encodeJson p.asdict) = p.asdict := by
  simp only [PackageInfo.asdict, PackageInfo.asdictPairs, encodeJson_dict,
    decodeJson_dict, encodeJsonPairs_cons, encodeJsonPairs_nil,
    decodeJsonPairs_cons, decodeJsonPairs_nil, decEnc_optStrObj,
    decEnc_strListObj, decEnc_pathListObj, decEnc_pathListDictObj,
    decEnc_pyBool, decEnc_pyStr]
  exact objectHook_of_typeNone _ (by simp [dictGet])

theorem decEnc_injectedPairs (l : List (String × PackageInfo)) :
    objectHook (decodeJsonPairs (encodeJsonPairs
        (l.map (fun kv => (kv.1, kv.2.asdict))))) =
      .pyDict (l.map (fun kv => (kv.1, kv.2.asdict))) := by
  have hpairs : decodeJsonPairs (encodeJsonPairs
      (l.map (fun kv => (kv.1, kv.2.asdict)))) =
      l.map (fun kv => (kv.1, kv.2.asdict)) := by
    induction l with
    | nil => rfl
    | cons kv kvs ih =>
        simp only [List.map_cons, encodeJsonPairs, decodeJsonPairs, ih]
        simp [decEnc_asdict kv.2]
  rw [hpairs]
  exact objectHook_no_tag _ (by
    intro v hv s hs
    obtain ⟨d', rfl⟩ := dictGet_map_asdicts l "__type__" v hv
    exact PyObj.noConfusion hs)

/-- Decoding the encoder's output reproduces `to_dict` exactly, for
every store state: nothing in a `to_dict` image collides with the tag. -/
theorem decEnc_toDict (st : PipxMetadata) :
    decodeJson (encodeJson st.toDict) = st.toDict := by
  have hsi : decodeJson (encodeJson (match st.source_interpreter with
      | none => PyObj.pyNone
      | some p => PyObj.pyPath p)) = (match st.source_interpreter with
      | none => PyObj.pyNone
      | some p => PyObj.pyPath p) := by
    cases st.source_interpreter <;> rfl
  simp only [PipxMetadata.toDict, PipxMetadata.toDictPairs, encodeJson_dict,
    decodeJson_dict, encodeJsonPairs_cons, encodeJsonPairs_nil,
    decodeJsonPairs_cons, decodeJsonPairs_nil, decEnc_asdict, decEnc_optStrObj,
    decEnc_strListObj, decEnc_pyStr, hsi, decEnc_injectedPairs st.injected_packages]
  refine objectHook_of_typeNone _ ?_
  simp [dictGet]

/-! ### `from_dict` on a `to_dict` image -/

theorem dictGet_asdictPairs_suffix (p : PackageInfo) :
    dictGet p.asdictPairs "suffix" = some (.pyStr p.suffix) := by
  simp [PackageInfo.asdictPairs, dictGet]

theorem readInjectedEntry_asdict (k : String) (p : PackageInfo) :
    readInjectedEntry (k, .pyDict p.asdictPairs) = .ok (k ++ p.suffix, p) := by
  simp [readInjectedEntry, PackageInfo.asdict, asDict, dictGet_asdictPairs_suffix,
    fromKwargs_asdictPairs]

theorem mapExceptList_injected (l : List (String × PackageInfo)) :
    mapExceptList readInjectedEntry
        (l.map (fun kv => (kv.1, PyObj.pyDict kv.2.asdictPairs))) =
      .ok (l.map (fun kv => (kv.1 ++ kv.2.suffix, kv.2))) := by
  induction l with
  | nil => rfl
  | cons kv kvs ih => simp [mapExceptList, readInjectedEntry_asdict, ih]

theorem dictGet_toDictPairs_version (st : PipxMetadata) :
    dictGet st.toDictPairs "pipx_metadata_version" = some (.pyStr metadataVersionTag) := by
  simp [PipxMetadata.toDictPairs, dictGet]

theorem dictGet_toDictPairs_main (st : PipxMetadata) :
    dictGet st.toDictPairs "main_package" = some st.main_package.asdict := by
  simp [PipxMetadata.toDictPairs, dictGet]

theorem dictGet_toDictPairs_python (st : PipxMetadata) :
    dictGet st.toDictPairs "python_version" = some (optStrObj st.python_version) := by
  simp [PipxMetadata.toDictPairs, dictGet]

theorem dictGet_toDictPairs_source (st : PipxMetadata) :
    dictGet st.toDictPairs "source_interpreter" =
      some (match st.source_interpreter with
        | none => PyObj.pyNone
        | some p => PyObj.pyPath p) := by
  simp [PipxMetadata.toDictPairs, dictGet]

theorem dictGet_toDictPairs_venvArgs (st : PipxMetadata) :
    dictGet st.toDictPairs "venv_args" = some (strListObj st.venv_args) := by
  simp [PipxMetadata.toDictPairs, dictGet]

theorem dictGet_toDictPairs_injected (st : PipxMetadata) :
    dictGet st.toDictPairs "injected_packages" =
      some (.pyDict (st.injected_packages.map (fun kv => (kv.1, kv.2.asdict)))) := by
  simp [PipxMetadata.toDictPairs, dictGet]

/-- A current-version image is passed through the upcast ladder
unchanged. -/
theorem convertLegacy_toDictPairs (venvDir : Path) (st : PipxMetadata) :
    convertLegacyMetadata venvDir st.toDictPairs = .ok st.toDictPairs := by
  have hin : pyStrIn metadataVersionTag metadataVersionTag = true := by decide
  simp [convertLegacyMetadata, reqKey, dictGet_toDictPairs_version, hin]

/-- `from_dict(to_dict())`: every field of the source state is
reconstructed, except that each injected-package key comes back as the
stored key with the record's suffix appended once more (and `venv_dir`
stays the reading store's own). -/
theorem fromDict_toDict (st0 st : PipxMetadata) :
    st0.fromDict st.toDict =
      .ok ⟨st0.venv_dir, st.main_package, st.python_version, st.source_interpreter,
        st.venv_args,
        st.injected_packages.map (fun kv => (kv.1 ++ kv.2.suffix, kv.2))⟩ := by
  cases hsi : st.source_interpreter with
  | none =>
      simp [PipxMetadata.fromDict, PipxMetadata.toDict, asDict,
        convertLegacy_toDictPairs, reqKey, dictGet_toDictPairs_main,
        dictGet_toDictPairs_python, dictGet_toDictPairs_source,
        dictGet_toDictPairs_venvArgs, dictGet_toDictPairs_injected, hsi,
        PackageInfo.asdict, fromKwargs_asdictPairs, pyTruthy,
        mapExceptList_injected]
  | some p =>
      simp [PipxMetadata.fromDict, PipxMetadata.toDict, asDict,
        convertLegacy_toDictPairs, reqKey, dictGet_toDictPairs_main,
        dictGet_toDictPairs_python, dictGet_toDictPairs_source,
        dictGet_toDictPairs_venvArgs, dictGet_toDictPairs_injected, hsi,
        PackageInfo.asdict, fromKwargs_asdictPairs, pyTruthy, pyPathOf,
        mapExceptList_injected]

/-! ### Decomposing a successful `from_dict` run -/

theorem exceptMap_eq_ok {x : Except PyErr α} {f : α → β} {b : β}
    (h : (f <$> x) = .ok b) : ∃ a, x = .ok a ∧ f a = b := by
  cases x with
  | ok a => exact ⟨a, rfl, by simpa using h⟩
  | error e => exact absurd h (by simp)

/-- Whatever succeeds in `PackageInfo(**d)` took `suffix` and `pinned`
from the keyword dict (or their dataclass defaults). -/
theorem fromKwargs_ok_fields {d : List (String × PyObj)} {pi : PackageInfo}
    (h : PackageInfo.fromKwargs d = .ok pi) :
    optArg d "suffix" asStr "" = .ok pi.suffix ∧
      optArg d "pinned" asBool false = .ok pi.pinned := by
  unfold PackageInfo.fromKwargs at h
  split at h
  · split at h
    · injection h with h'
      subst h'
      constructor <;> assumption
    · exact absurd h (by simp)
  · exact absurd h (by simp)

/-- Any successful `from_dict` run factors through the upcast ladder, a
keyword construction of the main record, and the `source_interpreter`
truthiness test; `venv_dir` is untouched. -/
theorem fromDict_ok_decompose {st : PipxMetadata} {input : PyObj} {st' : PipxMetadata}
    (h : st.fromDict input = .ok st') :
    ∃ d0 d mpObj mpD pi siv,
      asDict input = .ok d0 ∧
      convertLegacyMetadata st.venv_dir d0 = .ok d ∧
      reqKey d "main_package" = .ok mpObj ∧
      asDict mpObj = .ok mpD ∧
      PackageInfo.fromKwargs mpD = .ok pi ∧
      (match dictGet d "source_interpreter" with
        | some v => if pyTruthy v then Except.map some (pyPathOf v) else pure none
        | none => pure none) = .ok siv ∧
      st'.venv_dir = st.venv_dir ∧ st'.main_package = pi ∧
      st'.source_interpreter = siv := by
  unfold PipxMetadata.fromDict at h
  obtain ⟨d0, h0, h⟩ := exceptBind_eq_ok h
  obtain ⟨d, h1, h⟩ := exceptBind_eq_ok h
  obtain ⟨mpObj, h2, h⟩ := exceptBind_eq_ok h
  obtain ⟨mpD, h3, h⟩ := exceptBind_eq_ok h
  obtain ⟨pi, h4, h⟩ := exceptBind_eq_ok h
  obtain ⟨pvObj, h5, h⟩ := exceptBind_eq_ok h
  obtain ⟨pv, h6, h⟩ := exceptBind_eq_ok h
  obtain ⟨siv, h7, h⟩ := exceptBind_eq_ok h
  obtain ⟨vaObj, h8, h⟩ := exceptBind_eq_ok h
  obtain ⟨va, h9, h⟩ := exceptBind_eq_ok h
  obtain ⟨injObj, h10, h⟩ := exceptBind_eq_ok h
  obtain ⟨injD, h11, h⟩ := exceptBind_eq_ok h
  obtain ⟨inj, h12, h⟩ := exceptMap_eq_ok h
  exact ⟨d0, d, mpObj, mpD, pi, siv, h0, h1, h2, h3, h4, h7,
    by rw [← h], by rw [← h], by rw [← h]⟩

/-! ### The upcast ladder on legacy versions -/

theorem convertLegacy_01 (venvDir : Path) (d mp : List (String × PyObj)) (p : String)
    (hv : dictGet d "pipx_metadata_version" = some (.pyStr "0.1"))
    (hm : dictGet d "main_package" = some (.pyDict mp))
    (hp : dictGet mp "package" = some (.pyStr p))
    (hne : p ≠ venvDir.name) :
    convertLegacyMetadata venvDir d =
      .ok (dictSet (dictSet d "main_package"
          (.pyDict (dictSet mp "suffix" (.pyStr (pyStrRemove venvDir.name p)))))
        "source_interpreter" .pyNone) := by
  have h1 : pyStrIn "0.1" metadataVersionTag = false := by decide
  simp [convertLegacyMetadata, reqKey, hv, hm, hp, h1, asDict, hne]

theorem convertLegacy_04 (venvDir : Path) (d : List (String × PyObj))
    (hv : dictGet d "pipx_metadata_version" = some (.pyStr "0.4")) :
    convertLegacyMetadata venvDir d = .ok (dictSet d "pinned" (.pyBool false)) := by
  have h1 : pyStrIn "0.4" metadataVersionTag = false := by decide
  simp [convertLegacyMetadata, reqKey, hv, h1]

/-! ### Validation helpers -/

theorem corruptCheck_iff (st : PipxMetadata) :
    st.corruptCheck = true ↔
      (st.main_package.package = none ∨ st.main_package.package_or_url = none ∨
        st.main_package.include_apps = false) := by
  simp [PipxMetadata.corruptCheck, Option.isNone_iff_eq_none, Bool.or_eq_true,
    Bool.not_eq_true', or_assoc]

theorem corruptCheck_eq_false {st : PipxMetadata}
    (hp : st.main_package.package ≠ none)
    (hu : st.main_package.package_or_url ≠ none)
    (ha : st.main_package.include_apps = true) : st.corruptCheck = false := by
  cases hc : st.corruptCheck
  · rfl
  · exact absurd ((corruptCheck_iff st).mp hc)
      (by rintro (h | h | h)
          exacts [hp h, hu h, by rw [ha] at h; exact Bool.noConfusion h])

/-! ### Concrete sample data for the witnesses and counterexamples -/

/-- A fully populated main record (paths in `app_paths` and
`man_paths_of_dependencies` included). -/
def fooMain : PackageInfo :=
  ⟨some "foo", some "foo", ["--no-cache-dir"], false, true, ["foo"],
   [⟨"/venvs/foo/bin/foo"⟩], ["depapp"], [("dep", [⟨"/venvs/foo/bin/depapp"⟩])],
   "1.2.3", ["foo.1"], [⟨"/venvs/foo/man/man1/foo.1"⟩], [],
   [("dep", [⟨"/venvs/foo/man/man1/depapp.1"⟩])], "", false⟩

/-- An injected record with an empty suffix. -/
def barPlain : PackageInfo :=
  ⟨some "bar", some "bar", [], false, true, [], [], [], [], "2.0",
   [], [], [], [], "", false⟩

/-- An injected record with a non-empty suffix. -/
def barSuffixed : PackageInfo :=
  ⟨some "bar", some "bar", [], false, true, [], [], [], [], "2.0",
   [], [], [], [], "-x", false⟩

/-- An injected record violating the persistence-validity invariant. -/
def badInjected : PackageInfo :=
  ⟨none, none, [], false, false, [], [], [], [], "", [], [], [], [], "", false⟩

/-- A valid store with one plainly keyed injected package. -/
def fooStore : PipxMetadata :=
  ⟨⟨"/venvs/foo"⟩, fooMain, some "3.11.4", some ⟨"/usr/bin/python3"⟩,
   ["--system-site-packages"], [("bar", barPlain)]⟩

/-- A valid store whose injected package carries a composite key
(`package_name + suffix`) and a non-empty suffix. -/
def fooStoreSuffixed : PipxMetadata :=
  ⟨⟨"/venvs/foo"⟩, fooMain, none, none, [], [("bar-x", barSuffixed)]⟩

/-- A valid main record next to an invalid injected record. -/
def fooStoreBadInjected : PipxMetadata :=
  ⟨⟨"/venvs/foo"⟩, fooMain, none, none, [], [("bad", badInjected)]⟩

/-- No file yet; reading and writing both possible. -/
def fsFresh : FileSystem := ⟨none, true, true⟩

/-- No file, and opening for write fails (`OSError`). -/
def fsReadOnly : FileSystem := ⟨none, true, false⟩

/-! ### Claim C5 -/

/-- C5: `write` raises the internal-corruption `PipxError` exactly when
`main_package.package` is absent, `main_package.package_or_url` is
absent, or `main_package.include_apps` is false; and in that case the
file state is untouched (validation precedes the open). -/
theorem C5_validation_gate (st : PipxMetadata) (fs : FileSystem) :
    ((st.write fs).err = some (.pipxError corruptMsg) ↔
      (st.main_package.package = none ∨ st.main_package.package_or_url = none ∨
        st.main_package.include_apps = false)) ∧
    ((st.main_package.package = none ∨ st.main_package.package_or_url = none ∨
        st.main_package.include_apps = false) → (st.write fs).fs = fs) := by
  rw [← corruptCheck_iff]
  by_cases hc : st.corruptCheck = true <;> by_cases hw : fs.writable = true <;>
    simp [PipxMetadata.write, hc, hw]

/-- Witness for C5 at a freshly constructed store (main package absent):
the corruption error is raised and no file is created. -/
theorem C5_validation_gate_witness :
    ((PipxMetadata.initial ⟨"/venvs/foo"⟩).write fsFresh).err =
        some (.pipxError corruptMsg) ∧
      ((PipxMetadata.initial ⟨"/venvs/foo"⟩).write fsFresh).fs = fsFresh :=
  ⟨(C5_validation_gate _ _).1.mpr (Or.inl rfl), (C5_validation_gate _ _).2 (Or.inl rfl)⟩

/-! ### Claim C6 -/

/-- C6: when the store passes pre-write validation and opening the file
for writing fails, `write` swallows the `OSError`, logs a warning naming
the affected environment, and returns with the file state unchanged. -/
theorem C6_write_swallows_io_error (st : PipxMetadata) (fs : FileSystem)
    (hp : st.main_package.package ≠ none)
    (hu : st.main_package.package_or_url ≠ none)
    (ha : st.main_package.include_apps = true)
    (hw : fs.writable = false) :
    st.write fs = ⟨none, fs, [.warnUnableToWrite st.venv_dir]⟩ := by
  simp [PipxMetadata.write, corruptCheck_eq_false hp hu ha, hw]

/-- Witness for C6 at a concrete valid store and unwritable file. -/
theorem C6_write_swallows_io_error_witness :
    fooStore.write fsReadOnly =
      ⟨none, fsReadOnly, [.warnUnableToWrite fooStore.venv_dir]⟩ :=
  C6_write_swallows_io_error fooStore fsReadOnly (by decide) (by decide)
    (by decide) rfl

/-! ### Claim C8 -/

/-- C8: constructing a store (default read-on-init) over a directory
with no metadata file succeeds and leaves every field at its default:
identity fields absent, `include_apps` true, everything else
empty/false. -/
theorem C8_default_state_on_missing_file (venvDir : Path) (r w : Bool) :
    (PipxMetadata.construct venvDir ⟨none, r, w⟩ true).err = none ∧
    (PipxMetadata.construct venvDir ⟨none, r, w⟩ true).state =
      PipxMetadata.initial venvDir ∧
    (PipxMetadata.construct venvDir ⟨none, r, w⟩ true).state.main_package.package = none ∧
    (PipxMetadata.construct venvDir ⟨none, r, w⟩ true).state.main_package.package_or_url = none ∧
    (PipxMetadata.construct venvDir ⟨none, r, w⟩ true).state.main_package.include_apps = true ∧
    (PipxMetadata.construct venvDir ⟨none, r, w⟩ true).state.main_package.include_dependencies = false ∧
    (PipxMetadata.construct venvDir ⟨none, r, w⟩ true).state.main_package.package_version = "" ∧
    (PipxMetadata.construct venvDir ⟨none, r, w⟩ true).state.main_package.pip_args = [] ∧
    (PipxMetadata.construct venvDir ⟨none, r, w⟩ true).state.main_package.apps = [] ∧
    (PipxMetadata.construct venvDir ⟨none, r, w⟩ true).state.main_package.app_paths = [] ∧
    (PipxMetadata.construct venvDir ⟨none, r, w⟩ true).state.main_package.apps_of_dependencies = [] ∧
    (PipxMetadata.construct venvDir ⟨none, r, w⟩ true).state.main_package.app_paths_of_dependencies = [] ∧
    (PipxMetadata.construct venvDir ⟨none, r, w⟩ true).state.main_package.man_pages = [] ∧
    (PipxMetadata.construct venvDir ⟨none, r, w⟩ true).state.main_package.man_paths = [] ∧
    (PipxMetadata.construct venvDir ⟨none, r, w⟩ true).state.main_package.man_pages_of_dependencies = [] ∧
    (PipxMetadata.construct venvDir ⟨none, r, w⟩ true).state.main_package.man_paths_of_dependencies = [] ∧
    (PipxMetadata.construct venvDir ⟨none, r, w⟩ true).state.main_package.suffix = "" ∧
    (PipxMetadata.construct venvDir ⟨none, r, w⟩ true).state.main_package.pinned = false ∧
    (PipxMetadata.construct venvDir ⟨none, r, w⟩ true).state.python_version = none ∧
    (PipxMetadata.construct venvDir ⟨none, r, w⟩ true).state.source_interpreter = none ∧
    (PipxMetadata.construct venvDir ⟨none, r, w⟩ true).state.venv_args = [] ∧
    (PipxMetadata.construct venvDir ⟨none, r, w⟩ true).state.injected_packages = [] := by
  have hs : PipxMetadata.construct venvDir ⟨none, r, w⟩ true =
      ⟨none, PipxMetadata.initial venvDir, []⟩ := by
    cases r <;> simp [PipxMetadata.construct, PipxMetadata.read, FileSystem.openRead]
  refine ⟨?_, ?_, ?_, ?_, ?_, ?_, ?_, ?_, ?_, ?_, ?_, ?_, ?_, ?_, ?_, ?_, ?_, ?_,
    ?_, ?_, ?_, ?_⟩ <;> rw [hs] <;> rfl

/-! ### Claim C9 -/

/-- C9: with no intervening mutation, writing twice persists
byte-identical content both times: the bytes are a deterministic
rendering (sorted keys, 4-space indent) of the path-tagged `to_dict`
image of the state. -/
theorem C9_write_idempotent (st : PipxMetadata) (fs : FileSystem)
    (hp : st.main_package.package ≠ none)
    (hu : st.main_package.package_or_url ≠ none)
    (ha : st.main_package.include_apps = true)
    (hw : fs.writable = true) :
    (st.write fs).err = none ∧ (st.write (st.write fs).fs).err = none ∧
    (st.write fs).fs.persistedBytes = some (renderJson 0 (encodeJson st.toDict)) ∧
    (st.write (st.write fs).fs).fs.persistedBytes = (st.write fs).fs.persistedBytes := by
  simp [PipxMetadata.write, corruptCheck_eq_false hp hu ha, hw,
    FileSystem.persistedBytes]

/-- Witness for C9 at a concrete valid store. -/
theorem C9_write_idempotent_witness :
    (fooStore.write (fooStore.write fsFresh).fs).fs.persistedBytes =
      (fooStore.write fsFresh).fs.persistedBytes :=
  (C9_write_idempotent fooStore fsFresh (by decide) (by decide) (by decide)
    rfl).2.2.2

/-! ### Claim C10 -/

/-- C10: pre-write validation looks only at the main record: whenever the
main record is valid, `write` raises nothing, no matter what the
injected records contain. -/
theorem C10_only_main_record_validated (st : PipxMetadata) (fs : FileSystem)
    (hp : st.main_package.package ≠ none)
    (hu : st.main_package.package_or_url ≠ none)
    (ha : st.main_package.include_apps = true) :
    (st.write fs).err = none := by
  have hc := corruptCheck_eq_false hp hu ha
  by_cases hw : fs.writable = true <;> simp [PipxMetadata.write, hc, hw]

/-- Witness for C10 at a store whose injected record has `package` and
`package_or_url` absent and `include_apps` false: `write` still passes
validation. -/
theorem C10_only_main_record_validated_witness :
    (fooStoreBadInjected.write fsFresh).err = none ∧
      badInjected.package = none ∧ badInjected.package_or_url = none ∧
      badInjected.include_apps = false ∧
      fooStoreBadInjected.injected_packages = [("bad", badInjected)] :=
  ⟨C10_only_main_record_validated fooStoreBadInjected fsFresh (by decide)
    (by decide) (by decide), rfl, rfl, rfl, rfl⟩

/-! ### Claim C1 -/

theorem map_compositeKeys_id (l : List (String × PackageInfo))
    (h : ∀ kv ∈ l, kv.2.suffix = "") :
    l.map (fun kv => (kv.1 ++ kv.2.suffix, kv.2)) = l := by
  induction l with
  | nil => rfl
  | cons kv kvs ih =>
      have h1 := h kv (List.mem_cons_self kv kvs)
      simp only [List.map_cons, h1]
      rw [ih (fun x hx => h x (List.mem_cons_of_mem _ hx))]
      simp

/-- C1 (amended): for a validation-passing state, `write` then a fresh
construction over the same directory succeeds and reproduces every field
of the state, except that each injected-package key comes back as the
stored key with the record's suffix appended once more; in particular
the state is reproduced exactly whenever every injected record's suffix
is empty. -/
theorem C1_roundtrip_amended (st : PipxMetadata) (fs : FileSystem)
    (hp : st.main_package.package ≠ none)
    (hu : st.main_package.package_or_url ≠ none)
    (ha : st.main_package.include_apps = true)
    (hr : fs.readable = true) (hw : fs.writable = true) :
    (st.write fs).err = none ∧
    (PipxMetadata.construct st.venv_dir (st.write fs).fs true).err = none ∧
    (PipxMetadata.construct st.venv_dir (st.write fs).fs true).state =
      ⟨st.venv_dir, st.main_package, st.python_version, st.source_interpreter,
        st.venv_args,
        st.injected_packages.map (fun kv => (kv.1 ++ kv.2.suffix, kv.2))⟩ ∧
    ((∀ kv ∈ st.injected_packages, kv.2.suffix = "") →
      (PipxMetadata.construct st.venv_dir (st.write fs).fs true).state = st) := by
  have hc := corruptCheck_eq_false hp hu ha
  have hwr : st.write fs =
      ⟨none, ⟨some (encodeJson st.toDict), fs.readable, fs.writable⟩, []⟩ := by
    simp [PipxMetadata.write, hc, hw]
  have hread : PipxMetadata.construct st.venv_dir (st.write fs).fs true =
      ⟨none, ⟨st.venv_dir, st.main_package, st.python_version,
        st.source_interpreter, st.venv_args,
        st.injected_packages.map (fun kv => (kv.1 ++ kv.2.suffix, kv.2))⟩, []⟩ := by
    rw [hwr]
    simp [PipxMetadata.construct, PipxMetadata.read, FileSystem.openRead, hr,
      decEnc_toDict, fromDict_toDict, PipxMetadata.initial]
  refine ⟨by rw [hwr], by rw [hread], by rw [hread], fun hsfx => ?_⟩
  rw [hread]
  show (⟨st.venv_dir, st.main_package, st.python_version, st.source_interpreter,
    st.venv_args,
    st.injected_packages.map (fun kv => (kv.1 ++ kv.2.suffix, kv.2))⟩ :
      PipxMetadata) = st
  rw [map_compositeKeys_id st.injected_packages hsfx]

/-- C1 counterexample: a valid state whose injected package carries the
composite key `"bar-x"` and suffix `"-x"` comes back re-keyed as
`"bar-x-x"`, so write-then-read does not reproduce the state. -/
theorem C1_roundtrip_counterexample :
    (fooStoreSuffixed.write fsFresh).err = none ∧
    (PipxMetadata.construct fooStoreSuffixed.venv_dir
      (fooStoreSuffixed.write fsFresh).fs true).err = none ∧
    (PipxMetadata.construct fooStoreSuffixed.venv_dir
      (fooStoreSuffixed.write fsFresh).fs true).state ≠ fooStoreSuffixed ∧
    (PipxMetadata.construct fooStoreSuffixed.venv_dir
      (fooStoreSuffixed.write fsFresh).fs true).state.injected_packages.map
        Prod.fst = ["bar-x-x"] ∧
    fooStoreSuffixed.injected_packages.map Prod.fst = ["bar-x"] := by
  refine ⟨by decide, by decide, by decide, by decide, by decide⟩

/-- Witness for C1 (amended) at a concrete valid store whose injected
record has an empty suffix: the state round-trips exactly. -/
theorem C1_roundtrip_amended_witness :
    (PipxMetadata.construct fooStore.venv_dir (fooStore.write fsFresh).fs
      true).state = fooStore :=
  (C1_roundtrip_amended fooStore fsFresh (by decide) (by decide) (by decide)
    rfl rfl).2.2.2 (by decide)

/-! ### Claim C3 -/

/-- C3 (amended): when the metadata file cannot be opened, `read`
returns normally with every in-memory field left unchanged (so a store
still in its post-construction default state stays default), logging
only when verbose. -/
theorem C3_read_failure_amended (st : PipxMetadata) (fs : FileSystem)
    (verbose : Bool) (h : fs.openRead = none) :
    st.read fs verbose =
      ⟨none, st, if verbose then [.warnUnableToRead st.venv_dir] else []⟩ := by
  simp [PipxMetadata.read, h]

/-- C3 counterexample: a store whose fields have been mutated away from
the defaults keeps those fields after a failed read — it is not reset to
the post-construction default state. -/
theorem C3_read_reset_counterexample :
    (fooStore.read fsFresh false).err = none ∧
    (fooStore.read fsFresh false).state = fooStore ∧
    (fooStore.read fsFresh false).state ≠
      PipxMetadata.initial fooStore.venv_dir := by
  refine ⟨rfl, rfl, by decide⟩

/-- Witness for C3 (amended) at a concrete mutated store and an absent
file. -/
theorem C3_read_failure_amended_witness :
    fooStore.read fsFresh false = ⟨none, fooStore, []⟩ :=
  C3_read_failure_amended fooStore fsFresh false rfl

/-! ### Claim C4 -/

/-- C4: deserializing a version-0.1 record whose stored
`main_package.package` differs from the environment directory's name
yields a main record whose `suffix` is the directory name with every
occurrence of the package name removed, and an absent
`source_interpreter`. -/
theorem C4_legacy01_upcast (st : PipxMetadata) (d mp : List (String × PyObj))
    (p : String) (st' : PipxMetadata)
    (hv : dictGet d "pipx_metadata_version" = some (.pyStr "0.1"))
    (hm : dictGet d "main_package" = some (.pyDict mp))
    (hpk : dictGet mp "package" = some (.pyStr p))
    (hne : p ≠ st.venv_dir.name)
    (h : st.fromDict (.pyDict d) = .ok st') :
    st'.main_package.suffix = pyStrRemove st.venv_dir.name p ∧
      st'.source_interpreter = none := by
  obtain ⟨d0, dd, mpObj, mpD, pi, siv, h0, h1, h2, h3, h4, h7, hvd, hmn, hsi⟩ :=
    fromDict_ok_decompose h
  simp only [asDict] at h0
  injection h0 with h0'
  subst h0'
  rw [convertLegacy_01 st.venv_dir d mp p hv hm hpk hne] at h1
  injection h1 with h1'
  subst h1'
  have hgm : dictGet (dictSet (dictSet d "main_package"
      (.pyDict (dictSet mp "suffix" (.pyStr (pyStrRemove st.venv_dir.name p)))))
      "source_interpreter" .pyNone) "main_package" =
      some (.pyDict (dictSet mp "suffix"
        (.pyStr (pyStrRemove st.venv_dir.name p)))) := by
    rw [dictGet_dictSet_ne _ _ _ _ (by decide), dictGet_dictSet_self]
  rw [reqKey, hgm] at h2
  injection h2 with h2'
  subst h2'
  simp only [asDict] at h3
  injection h3 with h3'
  subst h3'
  obtain ⟨hsfx, -⟩ := fromKwargs_ok_fields h4
  rw [optArg, dictGet_dictSet_self] at hsfx
  simp only [asStr] at hsfx
  injection hsfx with hsfx'
  rw [dictGet_dictSet_self] at h7
  simp only [pyTruthy] at h7
  rw [if_neg (by simp)] at h7
  simp only [exceptPure] at h7
  injection h7 with h7'
  constructor
  · rw [hmn, ← hsfx']
  · rw [hsi, ← h7']

/-- A stored version-0.1 main record: only the ten original fields. -/
def legacyRecord01 : List (String × PyObj) :=
  [("package", .pyStr "foo"), ("package_or_url", .pyStr "foo"),
   ("pip_args", .pyList []), ("include_dependencies", .pyBool false),
   ("include_apps", .pyBool true), ("apps", .pyList [.pyStr "foo"]),
   ("app_paths", .pyList [.pyPath ⟨"/venvs/foo-special/bin/foo"⟩]),
   ("apps_of_dependencies", .pyList []),
   ("app_paths_of_dependencies", .pyDict []),
   ("package_version", .pyStr "1.0")]

/-- A stored version-0.1 file (no `source_interpreter` key, as written
before version 0.4), in the form the object hook delivers it. -/
def legacy01TopPairs : List (String × PyObj) :=
  [("main_package", .pyDict legacyRecord01),
   ("python_version", .pyNone),
   ("venv_args", .pyList []),
   ("injected_packages", .pyDict []),
   ("pipx_metadata_version", .pyStr "0.1")]

/-- The 0.1 file as a value. -/
def legacy01Top : PyObj := .pyDict legacy01TopPairs

/-- Witness for C4: on a concrete 0.1 record with `package = "foo"` in
directory `foo-special`, deserialization succeeds with
`suffix = "-special"` and no `source_interpreter`. -/
theorem C4_legacy01_upcast_witness :
    ((PipxMetadata.initial ⟨"/venvs/foo-special"⟩).fromDict legacy01Top).toOption.map
        (fun st' => (st'.main_package.suffix, st'.source_interpreter)) =
      some ("-special", none) := by
  have hne : "foo" ≠ (Path.mk "/venvs/foo-special").name := by decide
  cases hh : (PipxMetadata.initial ⟨"/venvs/foo-special"⟩).fromDict legacy01Top with
  | ok st' =>
      have hc := C4_legacy01_upcast (PipxMetadata.initial ⟨"/venvs/foo-special"⟩)
        legacy01TopPairs legacyRecord01 "foo" st' rfl rfl rfl hne hh
      show some (st'.main_package.suffix, st'.source_interpreter) =
        some ("-special", none)
      rw [hc.1, hc.2]
      decide
  | error e =>
      have hp : ((PipxMetadata.initial ⟨"/venvs/foo-special"⟩).fromDict
          legacy01Top).toOption.isSome = true := by decide
      rw [hh] at hp
      simp [Except.toOption] at hp

/-! ### Claim C7 -/

/-- C7: deserializing a version-0.4 record whose stored main record has
no `pinned` key yields `main_package.pinned = false` (the dataclass
default fills the missing field). -/
theorem C7_legacy04_pinned (st : PipxMetadata) (d mp : List (String × PyObj))
    (st' : PipxMetadata)
    (hv : dictGet d "pipx_metadata_version" = some (.pyStr "0.4"))
    (hm : dictGet d "main_package" = some (.pyDict mp))
    (hnopin : dictGet mp "pinned" = none)
    (h : st.fromDict (.pyDict d) = .ok st') :
    st'.main_package.pinned = false := by
  obtain ⟨d0, dd, mpObj, mpD, pi, siv, h0, h1, h2, h3, h4, h7, hvd, hmn, hsi⟩ :=
    fromDict_ok_decompose h
  simp only [asDict] at h0
  injection h0 with h0'
  subst h0'
  rw [convertLegacy_04 st.venv_dir d hv] at h1
  injection h1 with h1'
  subst h1'
  rw [reqKey, dictGet_dictSet_ne _ _ _ _ (by decide), hm] at h2
  injection h2 with h2'
  subst h2'
  simp only [asDict] at h3
  injection h3 with h3'
  subst h3'
  obtain ⟨-, hpin⟩ := fromKwargs_ok_fields h4
  rw [optArg, hnopin] at hpin
  injection hpin with hpin'
  rw [hmn, ← hpin']

/-- A stored version-0.4 main record: everything except `pinned`. -/
def legacyRecord04 : List (String × PyObj) :=
  [("package", .pyStr "foo"), ("package_or_url", .pyStr "foo"),
   ("pip_args", .pyList []), ("include_dependencies", .pyBool false),
   ("include_apps", .pyBool true), ("apps", .pyList []),
   ("app_paths", .pyList []), ("apps_of_dependencies", .pyList []),
   ("app_paths_of_dependencies", .pyDict []),
   ("package_version", .pyStr "1.0"), ("man_pages", .pyList []),
   ("man_paths", .pyList []), ("man_pages_of_dependencies", .pyList []),
   ("man_paths_of_dependencies", .pyDict []), ("suffix", .pyStr "")]

/-- A stored version-0.4 file: `source_interpreter` present (added in
0.4), `pinned` absent everywhere. -/
def legacy04TopPairs : List (String × PyObj) :=
  [("main_package", .pyDict legacyRecord04),
   ("python_version", .pyStr "3.10.2"),
   ("source_interpreter", .pyNone),
   ("venv_args", .pyList []),
   ("injected_packages", .pyDict []),
   ("pipx_metadata_version", .pyStr "0.4")]

/-- The 0.4 file as a value. -/
def legacy04Top : PyObj := .pyDict legacy04TopPairs

/-- Witness for C7 at a concrete 0.4 record without a `pinned` key. -/
theorem C7_legacy04_pinned_witness :
    ((PipxMetadata.initial ⟨"/venvs/foo"⟩).fromDict legacy04Top).toOption.map
        (fun st' => st'.main_package.pinned) = some false := by
  cases hh : (PipxMetadata.initial ⟨"/venvs/foo"⟩).fromDict legacy04Top with
  | ok st' =>
      have hc := C7_legacy04_pinned (PipxMetadata.initial ⟨"/venvs/foo"⟩)
        legacy04TopPairs legacyRecord04 st' rfl rfl rfl hh
      show some st'.main_package.pinned = some false
      rw [hc]
  | error e =>
      have hp : ((PipxMetadata.initial ⟨"/venvs/foo"⟩).fromDict
          legacy04Top).toOption.isSome = true := by decide
      rw [hh] at hp
      simp [Except.toOption] at hp

/-! ### Claim C2 -/

/-- A well-formed current-shape stored file carrying an arbitrary
version tag. -/
def storedTopWithVersion (v : String) : PyObj :=
  .pyDict
    [("main_package", .pyDict barPlain.asdictPairs),
     ("python_version", .pyNone),
     ("source_interpreter", .pyNone),
     ("venv_args", .pyList []),
     ("injected_packages", .pyDict []),
     ("pipx_metadata_version", .pyStr v)]

/-- C2 (divergence witness for the code bug): the version tag `"0"` is
not one of the five recognized versions, yet deserialization accepts it
as current — because `in (self.__METADATA_VERSION__)` parenthesizes a
single string instead of building a tuple, so the test is substring
containment in `"0.5"` — while a tag that is not a substring, such as
`"9.9"`, does raise the unknown-version error naming the environment
and the tag. -/
theorem C2_unknown_version_code_divergence :
    ("0" ∉ ["0.1", "0.2", "0.3", "0.4", "0.5"]) ∧
    ((PipxMetadata.initial ⟨"/venvs/foo"⟩).fromDict
        (storedTopWithVersion "0")).toOption.map
      (fun st' => st'.main_package) = some barPlain ∧
    (PipxMetadata.initial ⟨"/venvs/foo"⟩).fromDict (storedTopWithVersion "9.9") =
      .error (.unknownMetadataVersion "foo" "9.9") := by
  refine ⟨by decide, by decide, rfl⟩

end Pipx
